import Mathlib

/-!
Verification of the support-case-reviewer guidelines fetcher
(`src/support_case_reviewer/guidelines_fetcher.py`).

The development shallowly embeds the Python module:

* Python strings are `String`; the handful of `str` methods the module uses
  (`strip`, `split`, `join`, f-string rendering) are defined below on
  `List Char` exactly as CPython behaves on the ASCII inputs in scope.
* The three compiled regular expressions of `CompiledRegex` are embedded as
  left-to-right scanners (`boldSub`, `brSub`, `stripTags`) implementing
  `re.sub` for those exact patterns.  They recurse on an explicit fuel
  argument bounded by the string length (each step of `re.sub` consumes at
  least one character, so `length` fuel is never exhausted); this keeps the
  definitions structurally recursive and hence computable by `rfl`/`decide`.
* JSON values produced by `json.loads` are the inductive `JVal`; the Python
  operations applied to them (`in`, subscript, `dict.get`, truthiness,
  `==`, f-string rendering) are embedded with their CPython semantics,
  returning `Except Unit` where the Python operation can raise.
* Parsed HTML (BeautifulSoup) is the inductive `HNode`; the BeautifulSoup
  operations used by the module (`find_all`, `get_text`, `.string`,
  `str(tag)`, `.children`) are embedded over it.
* The external collaborators — the HTTP transport, the `html.parser` based
  `BeautifulSoup` constructor and `json.loads` — are parameters
  (`fetch : Except Unit String`, `parse : String → Except Unit (List HNode)`,
  `jsonLoads : String → Except Unit JVal`), so theorems quantify over every
  behaviour of those collaborators.  A raised Python exception is the
  `Except.error` case throughout.
-/

namespace Constants

def DEFAULT_TIMEOUT : Nat := 30

def GUIDELINES_URL : String := "https://aws.amazon.com/jp/premiumsupport/tech-support-guidelines/"

def MIN_ITEMS_COUNT : Nat := 10

def LINEBREAK_MARKER : String := "|||LINEBREAK|||"

def MARKDOWN_LINE_BREAK : String := "  \n"

def SECTION_SEPARATOR : String := "\n\n"

def ERROR_MESSAGE : String := "予期せぬエラーによりガイドラインの内容を取得できませんでした"

end Constants

/-! ## Python string primitives -/

/-- The whitespace characters stripped by `str.strip()` and matched by the
regex class `\s` on the ASCII inputs in scope
(space, tab, newline, carriage return, vertical tab, form feed). -/
def isPySpace (c : Char) : Bool :=
  c = ' ' || c = '\t' || c = '\n' || c = '\r' || c = Char.ofNat 11 || c = Char.ofNat 12

/-- Python `str.strip()` on the underlying character list. -/
def pyStripList (l : List Char) : List Char :=
  (((l.dropWhile isPySpace).reverse).dropWhile isPySpace).reverse

/-- Python `str.strip()`. -/
def pyStrip (s : String) : String := String.mk (pyStripList s.data)

/-- Does `pat` occur as a prefix of `s`? -/
def startsWithL : List Char → List Char → Bool
  | [], _ => true
  | _ :: _, [] => false
  | p :: ps, c :: cs => p = c && startsWithL ps cs

/-- Split at the leftmost occurrence of `pat`: `some (before, after)` with the
occurrence itself removed, `none` when `pat` does not occur. -/
def splitAtPat (pat : List Char) : List Char → Option (List Char × List Char)
  | [] => none
  | c :: cs =>
    if startsWithL pat (c :: cs) then some ([], List.drop pat.length (c :: cs))
    else
      match splitAtPat pat cs with
      | some (a, b) => some (c :: a, b)
      | none => none

/-- Python `str.split(sep)` for a non-empty separator (fuelled; each split
removes at least one character, so `length + 1` fuel is never exhausted). -/
def splitOnSepGo (pat : List Char) : Nat → List Char → List (List Char)
  | 0, s => [s]
  | fuel + 1, s =>
    match splitAtPat pat s with
    | some (a, b) => a :: splitOnSepGo pat fuel b
    | none => [s]

def splitOnSep (pat : List Char) (s : List Char) : List (List Char) :=
  splitOnSepGo pat (s.length + 1) s

/-- Python `'x' in s` substring test. -/
def substrIn (needle : String) (hay : String) : Bool :=
  (splitAtPat needle.data hay.data).isSome

/-! ## The compiled regular expressions (`CompiledRegex`)

`BOLD_TAG` (a bold pair around the shortest enclosed content, dot matches
newline) substituted by a doubled-asterisk pair, `BR_TAG` (a br tag with
optional whitespace and self-closing slash, case-insensitive) substituted by
the line-break marker, and `HTML_TAG` (any remaining tag) substituted by the
empty string.  Each embedding scans left to right exactly as `re.sub` does:
at each position try to match; on a match emit the replacement and resume
after the match, otherwise keep the character and advance by one. -/

/-- Embedding of the `BOLD_TAG` substitution (bold markers around the shortest enclosed content): fuelled scanner. -/
def boldSubGo : Nat → List Char → List Char
  | 0, s => s
  | _ + 1, [] => []
  | fuel + 1, c :: cs =>
    if startsWithL "<b>".data (c :: cs) then
      match splitAtPat "</b>".data (List.drop 3 (c :: cs)) with
      | some (content, rest) => "**".data ++ content ++ "**".data ++ boldSubGo fuel rest
      | none => c :: boldSubGo fuel cs
    else c :: boldSubGo fuel cs

def boldSub (s : List Char) : List Char := boldSubGo s.length s

/-- Try to match `<br\s*/?>` (case-insensitive) at the head; on success
return the remainder after the match. -/
def matchBrAt : List Char → Option (List Char)
  | '<' :: c1 :: c2 :: rest =>
    if (c1 = 'b' || c1 = 'B') && (c2 = 'r' || c2 = 'R') then
      match List.dropWhile isPySpace rest with
      | '/' :: '>' :: r2 => some r2
      | '>' :: r2 => some r2
      | _ => none
    else none
  | _ => none

/-- Embedding of the `BR_TAG` substitution by the line-break marker: fuelled scanner. -/
def brSubGo : Nat → List Char → List Char
  | 0, s => s
  | _ + 1, [] => []
  | fuel + 1, c :: cs =>
    match matchBrAt (c :: cs) with
    | some rest => Constants.LINEBREAK_MARKER.data ++ brSubGo fuel rest
    | none => c :: brSubGo fuel cs

def brSub (s : List Char) : List Char := brSubGo s.length s

/-- Try to match `<[^>]+>` at the head; on success return the remainder. -/
def matchTagAt : List Char → Option (List Char)
  | '<' :: rest =>
    if (rest.takeWhile (fun c => !(c = '>'))).isEmpty then none
    else
      match rest.dropWhile (fun c => !(c = '>')) with
      | '>' :: r2 => some r2
      | _ => none
  | _ => none

/-- Embedding of the `HTML_TAG` substitution by the empty string: fuelled scanner. -/
def stripTagsGo : Nat → List Char → List Char
  | 0, s => s
  | _ + 1, [] => []
  | fuel + 1, c :: cs =>
    match matchTagAt (c :: cs) with
    | some rest => stripTagsGo fuel rest
    | none => c :: stripTagsGo fuel cs

def stripTags (s : List Char) : List Char := stripTagsGo s.length s

/-! ## JSON values and the Python operations applied to them -/

/-- A JSON value as produced by `json.loads`. -/
inductive JVal where
  | null
  | bool (b : Bool)
  | num (n : Int)
  | str (s : String)
  | arr (items : List JVal)
  | obj (kvs : List (String × JVal))

/-! Python `==` on JSON values (structural). -/
mutual

def jvalEq : JVal → JVal → Bool
  | JVal.null, JVal.null => true
  | JVal.bool a, JVal.bool b => a = b
  | JVal.num a, JVal.num b => a = b
  | JVal.str a, JVal.str b => a = b
  | JVal.arr xs, JVal.arr ys => jvalListEq xs ys
  | JVal.obj xs, JVal.obj ys => jvalKvsEq xs ys
  | _, _ => false

def jvalListEq : List JVal → List JVal → Bool
  | [], [] => true
  | x :: xs, y :: ys => jvalEq x y && jvalListEq xs ys
  | _, _ => false

def jvalKvsEq : List (String × JVal) → List (String × JVal) → Bool
  | [], [] => true
  | (k1, v1) :: xs, (k2, v2) :: ys => k1 = k2 && jvalEq v1 v2 && jvalKvsEq xs ys
  | _, _ => false

end

/-- Python truthiness (`bool(v)`) of a JSON value. -/
def pyTruthy : JVal → Bool
  | JVal.null => false
  | JVal.bool b => b
  | JVal.num n => !(n = 0)
  | JVal.str s => !(s = "")
  | JVal.arr xs => !xs.isEmpty
  | JVal.obj kvs => !kvs.isEmpty

/-- Key lookup in a JSON object (`dict` keys are unique, so first match). -/
def jLookup : List (String × JVal) → String → Option JVal
  | [], _ => none
  | (k, v) :: kvs, key => if k = key then some v else jLookup kvs key

/-- Python `dict.get(key, default)` on an object already known to be a `dict`. -/
def jLookupD (kvs : List (String × JVal)) (key : String) (dflt : JVal) : JVal :=
  (jLookup kvs key).getD dflt

def strQuote : String := String.singleton (Char.ofNat 39)

/-! Python `str(v)` / f-string rendering of a JSON value (`repr` for the
elements of containers). -/
mutual

def pyStr : JVal → String
  | JVal.null => "None"
  | JVal.bool b => if b then "True" else "False"
  | JVal.num n => toString n
  | JVal.str s => s
  | JVal.arr xs => "[" ++ pyReprList xs ++ "]"
  | JVal.obj kvs => "\x7b" ++ pyReprKvs kvs ++ "\x7d"

def pyRepr : JVal → String
  | JVal.null => "None"
  | JVal.bool b => if b then "True" else "False"
  | JVal.num n => toString n
  | JVal.str s => strQuote ++ s ++ strQuote
  | JVal.arr xs => "[" ++ pyReprList xs ++ "]"
  | JVal.obj kvs => "\x7b" ++ pyReprKvs kvs ++ "\x7d"

def pyReprList : List JVal → String
  | [] => ""
  | [x] => pyRepr x
  | x :: xs => pyRepr x ++ ", " ++ pyReprList xs

def pyReprKvs : List (String × JVal) → String
  | [] => ""
  | [(k, v)] => strQuote ++ k ++ strQuote ++ ": " ++ pyRepr v
  | (k, v) :: xs => strQuote ++ k ++ strQuote ++ ": " ++ pyRepr v ++ ", " ++ pyReprKvs xs

end

/-- Python `key in v`: key membership for a `dict`, element membership for a
`list`, substring test for a `str`; `TypeError` otherwise. -/
def pyContains (v : JVal) (key : String) : Except Unit Bool :=
  match v with
  | JVal.obj kvs => Except.ok (jLookup kvs key).isSome
  | JVal.arr xs => Except.ok (xs.any (fun x => jvalEq x (JVal.str key)))
  | JVal.str s => Except.ok (substrIn key s)
  | _ => Except.error ()

/-- Python `v[key]`: only a `dict` supports a string subscript (`KeyError`
when the key is absent, `TypeError` for every other value). -/
def pySubscript (v : JVal) (key : String) : Except Unit JVal :=
  match v with
  | JVal.obj kvs =>
    match jLookup kvs key with
    | some x => Except.ok x
    | none => Except.error ()
  | _ => Except.error ()

/-- Python `v.get(key, default)`: only a `dict` has `.get`
(`AttributeError` for every other value). -/
def pyGet (v : JVal) (key : String) (dflt : JVal) : Except Unit JVal :=
  match v with
  | JVal.obj kvs => Except.ok (jLookupD kvs key dflt)
  | _ => Except.error ()

/-! ## Parsed HTML and the BeautifulSoup operations used by the module -/

/-- A parsed HTML node: a text node (`NavigableString`) or an element
(`Tag`) with attributes and children.  A whole parsed document
(`BeautifulSoup` object) is its list of top-level children, `List HNode`. -/
inductive HNode where
  | text (s : String)
  | elem (name : String) (attrs : List (String × String)) (children : List HNode)

/-! All raw text-node strings below a node, in document order
(the strings `get_text` concatenates). -/
mutual

def getTextParts : HNode → List String
  | HNode.text s => [s]
  | HNode.elem _ _ cs => getTextPartsList cs

def getTextPartsList : List HNode → List String
  | [] => []
  | n :: ns => getTextParts n ++ getTextPartsList ns

end

/-- BeautifulSoup `tag.get_text(strip=True)`: strip every descendant string, drop the ones
that become empty, and concatenate. -/
def getTextStrip (n : HNode) : String :=
  String.join (((getTextParts n).map pyStrip).filter (fun s => !(s = "")))

/-- BeautifulSoup `soup.get_text(separator=sep, strip=True)` over a whole document. -/
def getTextSepStrip (sep : String) (soup : List HNode) : String :=
  String.intercalate sep (((getTextPartsList soup).map pyStrip).filter (fun s => !(s = "")))

/-! `tag.find_all(filter)`: all matching elements below the given nodes, in
document (pre-)order. -/
mutual

def findAllNode (p : HNode → Bool) : HNode → List HNode
  | HNode.text _ => []
  | HNode.elem name attrs cs =>
    (if p (HNode.elem name attrs cs) then [HNode.elem name attrs cs] else [])
      ++ findAllList p cs

def findAllList (p : HNode → Bool) : List HNode → List HNode
  | [] => []
  | n :: ns => findAllNode p n ++ findAllList p ns

end

/-- BeautifulSoup `element.find_all(filter)` searches the descendants of the element. -/
def findAllDesc (p : HNode → Bool) : HNode → List HNode
  | HNode.text _ => []
  | HNode.elem _ _ cs => findAllList p cs

/-- BeautifulSoup `element.find_all(name, recursive=False)`: direct children only. -/
def findDirect (nm : String) : HNode → List HNode
  | HNode.text _ => []
  | HNode.elem _ _ cs =>
    cs.filter (fun n =>
      match n with
      | HNode.elem m _ _ => m = nm
      | HNode.text _ => false)

/-- BeautifulSoup `tag.string`: the single string below a chain of single-child tags,
`None` otherwise. -/
def hstring : HNode → Option String
  | HNode.text s => some s
  | HNode.elem _ _ [c] => hstring c
  | HNode.elem _ _ _ => none

def lookupAttr : List (String × String) → String → Option String
  | [], _ => none
  | (k, v) :: kvs, key => if k = key then some v else lookupAttr kvs key

/-- The filter of `find_all` for `script` tags whose `type` attribute is `application/json`. -/
def isJsonScript : HNode → Bool
  | HNode.elem name attrs _ =>
    name = "script" && lookupAttr attrs "type" = some "application/json"
  | HNode.text _ => false

/-- The filter of `find_all` for `tr` elements. -/
def isTr : HNode → Bool
  | HNode.elem name _ _ => name = "tr"
  | HNode.text _ => false

/-- The filter of `find_all` for `th` and `td` elements (`find_all` with a
name list is order-insensitive). -/
def isCellTag : HNode → Bool
  | HNode.elem name _ _ => name = "th" || name = "td"
  | HNode.text _ => false

/-- The HTML void elements, which `str(tag)` renders self-closed
(`<br/>`), as `html.parser`-backed BeautifulSoup does. -/
def voidElements : List String :=
  ["area", "base", "br", "col", "embed", "hr", "img", "input", "link", "meta",
   "param", "source", "track", "wbr"]

/-- Minimal entity escaping applied by `str(tag)` to text. -/
def escapeText (s : String) : String :=
  String.join (s.data.map (fun c =>
    if c = '&' then "&amp;" else if c = '<' then "&lt;"
    else if c = '>' then "&gt;" else String.singleton c))

/-- Entity escaping applied by `str(tag)` to attribute values. -/
def escapeAttr (s : String) : String :=
  String.join (s.data.map (fun c =>
    if c = '&' then "&amp;" else if c = '"' then "&quot;" else String.singleton c))

def serializeAttrs (attrs : List (String × String)) : String :=
  String.join (attrs.map (fun kv => " " ++ kv.1 ++ "=\"" ++ escapeAttr kv.2 ++ "\""))

/-! `str(tag)`: serialize a parsed node back to HTML markup. -/
mutual

def serialize : HNode → String
  | HNode.text s => escapeText s
  | HNode.elem name attrs cs =>
    if voidElements.contains name then
      "<" ++ name ++ serializeAttrs attrs ++ "/>"
    else
      "<" ++ name ++ serializeAttrs attrs ++ ">" ++ serializeList cs
        ++ "</" ++ name ++ ">"

def serializeList : List HNode → String
  | [] => ""
  | n :: ns => serialize n ++ serializeList ns

end

/-! ## HTMLToMarkdownConverter -/

/-- Embedding of `HTMLToMarkdownConverter._process_li_content` after `str(li_element)`:
rewrite `<b>...</b>` to `**...**`, rewrite `<br>` variants to the line-break
marker, strip the remaining tags and `strip()` the result, split on the
marker, `strip()` each segment dropping the ones that become empty, and
rejoin with the hard Markdown line break. -/
def process_li_str (html_str : String) : String :=
  Constants.MARKDOWN_LINE_BREAK.intercalate
    (((splitOnSep Constants.LINEBREAK_MARKER.data
          (pyStripList (stripTags (brSub (boldSub html_str.data))))).map
        (fun l => pyStrip (String.mk l))).filter (fun line => !(line = "")))

/-- Embedding of `HTMLToMarkdownConverter._process_li_content`. -/
def process_li_content (li_element : HNode) : String :=
  process_li_str (serialize li_element)

/-- Embedding of `HTMLToMarkdownConverter._convert_list`: enumerate the direct `li`
children, keep the items whose processed text is truthy, and join the
formatted lines with newlines. -/
def convert_list (list_element : HNode) (formatter : Nat → String → String) : String :=
  String.intercalate "\n"
    ((findDirect "li" list_element).enum.filterMap (fun p =>
      if process_li_content p.2 = "" then none
      else some (formatter p.1 (process_li_content p.2))))

/-- Embedding of `HTMLToMarkdownConverter._convert_unordered_list`. -/
def convert_unordered_list (ul_element : HNode) : String :=
  convert_list ul_element (fun _ text => "- " ++ text)

/-- Embedding of `HTMLToMarkdownConverter._convert_ordered_list`. -/
def convert_ordered_list (ol_element : HNode) : String :=
  convert_list ol_element (fun i text => toString (i + 1) ++ ". " ++ text)

/-- The pipe-delimited Markdown row: cells joined by pipes with a leading and a trailing pipe. -/
def pipeRow (cells : List String) : String :=
  "| " ++ String.intercalate " | " cells ++ " |"

/-- The stripped cell texts of one table row
(stripped `get_text` of each `th` or `td` cell found in the row). -/
def rowCells (row : HNode) : List String :=
  (findAllDesc isCellTag row).map getTextStrip

/-- Embedding of `HTMLToMarkdownConverter._convert_table`. -/
def convert_table (table_element : HNode) : String :=
  match findAllDesc isTr table_element with
  | [] => ""
  | header_row :: rest =>
    String.intercalate "\n"
      ((if rowCells header_row = [] then []
        else [pipeRow (rowCells header_row),
              pipeRow (List.replicate (rowCells header_row).length "---")]) ++
       rest.filterMap (fun row =>
         if rowCells row = [] then none else some (pipeRow (rowCells row))))

/-- Embedding of `HTMLToMarkdownConverter._convert_element`: dispatch on the tag name;
`p` and every unknown tag fall back to `get_text(strip=True)`. -/
def convert_element (element : HNode) : String :=
  match element with
  | HNode.elem name _ _ =>
    if name = "ul" then convert_unordered_list element
    else if name = "ol" then convert_ordered_list element
    else if name = "table" then convert_table element
    else getTextStrip element
  | HNode.text _ => getTextStrip element

/-- The loop of `convert_html_to_markdown` over `soup.children`: tags are
converted (kept when the conversion is non-empty), text nodes are stripped
(kept when non-empty), and the blocks are joined with single newlines. -/
def convertSoupChildren (soup : List HNode) : String :=
  String.intercalate "\n"
    (soup.filterMap (fun element =>
      match element with
      | HNode.elem name attrs cs =>
        if convert_element (HNode.elem name attrs cs) = "" then none
        else some (convert_element (HNode.elem name attrs cs))
      | HNode.text t =>
        if pyStrip t = "" then none else some (pyStrip t)))

/-- Embedding of `HTMLToMarkdownConverter.convert_html_to_markdown`.  The argument is the
value of a JSON field: on a falsy value the guard returns `""`; on a truthy
non-string the `strip` call of the guard raises `AttributeError`. -/
def convert_html_to_markdown (parse : String → Except Unit (List HNode))
    (html_content : JVal) : Except Unit String :=
  match html_content with
  | JVal.str s =>
    if pyStrip s = "" then Except.ok ""
    else
      match parse s with
      | Except.error e => Except.error e
      | Except.ok soup => Except.ok (convertSoupChildren soup)
  | v => if pyTruthy v then Except.error () else Except.ok ""

/-! ## JSONDataProcessor: locating the structured payload -/

/-- Embedding of `JSONDataProcessor._extract_guideline_items_from_json`: the parsed value
must be a dict with key `data`, itself a dict with key `items`, itself a
list of length at least `MIN_ITEMS_COUNT` whose first element is a dict
containing key `fields`. -/
def extract_guideline_items_from_json (data : JVal) : Option (List JVal) :=
  match data with
  | JVal.obj kvs =>
    match jLookup kvs "data" with
    | some (JVal.obj dkvs) =>
      match jLookup dkvs "items" with
      | some (JVal.arr items) =>
        if items.length < Constants.MIN_ITEMS_COUNT then none
        else
          match items with
          | JVal.obj ikvs :: _ =>
            if (jLookup ikvs "fields").isSome then some items else none
          | _ => none
      | _ => none
    | _ => none
  | _ => none

/-- One iteration of the script-block loop of `extract_json_data`:
`none` on a falsy `script.string`, on a `json.loads` failure (the
`except ... continue`), or on a failed extraction. -/
def blockResult (jsonLoads : String → Except Unit JVal) (script : HNode) :
    Option (List JVal) :=
  match hstring script with
  | none => none
  | some s =>
    if s = "" then none
    else
      match jsonLoads s with
      | Except.error _ => none
      | Except.ok data =>
        match extract_guideline_items_from_json data with
        | some items => if items.isEmpty then none else some items
        | none => none

/-- The script-block loop: first block with a truthy extraction wins. -/
def scanScripts (jsonLoads : String → Except Unit JVal) :
    List HNode → Option (List JVal)
  | [] => none
  | script :: rest =>
    match blockResult jsonLoads script with
    | some items => some items
    | none => scanScripts jsonLoads rest

/-- Embedding of `JSONDataProcessor.extract_json_data`. -/
def extract_json_data (jsonLoads : String → Except Unit JVal)
    (content : List HNode) : Option (List JVal) :=
  scanScripts jsonLoads (findAllList isJsonScript content)

/-! ## JSONDataProcessor: assembling the document -/

/-- Embedding of `JSONDataProcessor._is_valid_item`: `False` when the key
`fields` is not in the item; otherwise the heading obtained by subscripting
`fields` and calling `.get` with key `itemHeading` and an empty default must
be truthy and differ from the literal `NA`.  Raises (`Except.error`) when
the Python operations do: subscripting a non-dict item that supports `in`,
or `.get` on a non-dict `fields` value. -/
def is_valid_item (item : JVal) : Except Unit Bool :=
  match pyContains item "fields" with
  | Except.error e => Except.error e
  | Except.ok false => Except.ok false
  | Except.ok true =>
    match pySubscript item "fields" with
    | Except.error e => Except.error e
    | Except.ok fields =>
      match pyGet fields "itemHeading" (JVal.str "") with
      | Except.error e => Except.error e
      | Except.ok heading =>
        Except.ok (pyTruthy heading && !jvalEq heading (JVal.str "NA"))

/-- Embedding of `JSONDataProcessor._extract_category`: the `name` of the first tag of
`metadata.tags` when every shape check passes and the name is truthy. -/
def extract_category (item : JVal) : Except Unit (Option JVal) :=
  match pyGet item "metadata" (JVal.obj []) with
  | Except.error e => Except.error e
  | Except.ok metadata =>
    match metadata with
    | JVal.obj mkvs =>
      match jLookupD mkvs "tags" (JVal.arr []) with
      | JVal.arr (first_tag :: _) =>
        match first_tag with
        | JVal.obj tkvs =>
          Except.ok
            (if pyTruthy (jLookupD tkvs "name" (JVal.str "")) then
              some (jLookupD tkvs "name" (JVal.str ""))
            else none)
        | _ => Except.ok none
      | _ => Except.ok none
    | _ => Except.ok none

/-- Embedding of `JSONDataProcessor._convert_item_to_markdown_sections`: the heading
section, then — when `itemLongLoc` is truthy — the converted body when its
stripped form is non-empty. -/
def convert_item_to_markdown_sections (parse : String → Except Unit (List HNode))
    (item : JVal) : Except Unit (List String) :=
  match pySubscript item "fields" with
  | Except.error e => Except.error e
  | Except.ok fields =>
    match pyGet fields "itemHeading" (JVal.str "") with
    | Except.error e => Except.error e
    | Except.ok heading =>
      match pyGet fields "itemLongLoc" (JVal.str "") with
      | Except.error e => Except.error e
      | Except.ok content =>
        if pyTruthy content then
          match convert_html_to_markdown parse content with
          | Except.error e => Except.error e
          | Except.ok markdown_content =>
            Except.ok
              (if pyStrip markdown_content = "" then ["### " ++ pyStr heading]
              else ["### " ++ pyStr heading, pyStrip markdown_content])
        else Except.ok ["### " ++ pyStr heading]

/-- The category step of the item loop: on a truthy category differing from
the current one, emit a `## ` section and update the current category. -/
def categoryUpdate (category : Option JVal) (current : Option JVal) :
    List String × Option JVal :=
  match category with
  | some c =>
    match current with
    | none => (["## " ++ pyStr c], some c)
    | some p => if jvalEq c p then ([], current) else (["## " ++ pyStr c], some c)
  | none => ([], current)

/-- The item loop of `JSONDataProcessor.process_json_data`, carrying the
current category. -/
def processItems (parse : String → Except Unit (List HNode)) :
    Option JVal → List JVal → Except Unit (List String)
  | _, [] => Except.ok []
  | current, item :: rest =>
    match is_valid_item item with
    | Except.error e => Except.error e
    | Except.ok false => processItems parse current rest
    | Except.ok true =>
      match extract_category item with
      | Except.error e => Except.error e
      | Except.ok category =>
        match categoryUpdate category current with
        | (catSecs, current2) =>
          match convert_item_to_markdown_sections parse item with
          | Except.error e => Except.error e
          | Except.ok item_sections =>
            match processItems parse current2 rest with
            | Except.error e => Except.error e
            | Except.ok tail => Except.ok (catSecs ++ (item_sections ++ tail))

/-- Embedding of `JSONDataProcessor.process_json_data`: the collected sections joined
with the blank-line separator. -/
def process_json_data (parse : String → Except Unit (List HNode))
    (items : List JVal) : Except Unit String :=
  match processItems parse none items with
  | Except.error e => Except.error e
  | Except.ok sections => Except.ok (Constants.SECTION_SEPARATOR.intercalate sections)

/-! ## GuidelinesFetcher (orchestrator) -/

/-- Embedding of `GuidelinesFetcher._extract_all_text`: whole-page visible text with
newline separator, re-split into non-empty stripped lines and rejoined. -/
def extract_all_text (content : List HNode) : String :=
  String.intercalate "\n"
    (((splitOnSep ['\n'] (getTextSepStrip "\n" content).data).map
        (fun l => pyStrip (String.mk l))).filter (fun line => !(line = "")))

/-- Embedding of `GuidelinesFetcher._parse_content`: an empty or
whitespace-only input short-circuits to the empty string; otherwise parse,
try the JSON locator, and on a truthy item list assemble, falling back to
whole-page text extraction. -/
def parse_content (parse : String → Except Unit (List HNode))
    (jsonLoads : String → Except Unit JVal) (html : String) : Except Unit String :=
  if pyStrip html = "" then Except.ok ""
  else
    match parse html with
    | Except.error e => Except.error e
    | Except.ok soup =>
      match extract_json_data jsonLoads soup with
      | some items =>
        if items.isEmpty then Except.ok (extract_all_text soup)
        else process_json_data parse items
      | none => Except.ok (extract_all_text soup)

/-- Embedding of `GuidelinesFetcher.get_guidelines`: fetch and parse inside a catch-all;
any raised exception and any empty/whitespace-only result become the fixed
error sentinel. -/
def get_guidelines (fetch : Except Unit String)
    (parse : String → Except Unit (List HNode))
    (jsonLoads : String → Except Unit JVal) : String :=
  match fetch with
  | Except.error _ => Constants.ERROR_MESSAGE
  | Except.ok html_content =>
    match parse_content parse jsonLoads html_content with
    | Except.error _ => Constants.ERROR_MESSAGE
    | Except.ok result =>
      if pyStrip result = "" then Constants.ERROR_MESSAGE else result

/-! ## Concrete documents used by the examples -/

def liBrEx : HNode := HNode.elem "li" [] [HNode.text "Hello", HNode.elem "br" [] [], HNode.text "World"]

def liBoldEx : HNode := HNode.elem "li" [] [HNode.elem "b" [] [HNode.text "X"], HNode.text " rest"]

def ulEx : HNode := HNode.elem "ul" [] [HNode.elem "li" [] [HNode.text "A"], HNode.elem "li" [] [HNode.text "B"]]

def olEx : HNode := HNode.elem "ol" [] [HNode.elem "li" [] [HNode.text "A"], HNode.elem "li" [] [HNode.text "B"]]

def olGapEx : HNode := HNode.elem "ol" [] [HNode.elem "li" [] [HNode.text "A"], HNode.elem "li" [] [], HNode.elem "li" [] [HNode.text "C"]]

def trHeadEx : HNode :=
  HNode.elem "tr" [] [HNode.elem "th" [] [HNode.text "H1"], HNode.elem "th" [] [HNode.text "H2"]]

def trDataEx : HNode :=
  HNode.elem "tr" [] [HNode.elem "td" [] [HNode.text "a"], HNode.elem "td" [] [HNode.text "b"]]

def tableEx : HNode := HNode.elem "table" [] [trHeadEx, trDataEx]

/-- A valid guideline item with heading `A` and no body. -/
def itemOkA : JVal := JVal.obj [("fields", JVal.obj [("itemHeading", JVal.str "A")])]

/-- An item whose `fields` value is present but is a string, not a dict. -/
def itemBadFields : JVal := JVal.obj [("fields", JVal.str "oops")]

/-- An invalid item: heading is the literal `NA`. -/
def itemNA : JVal := JVal.obj [("fields", JVal.obj [("itemHeading", JVal.str "NA")])]

def items10 : List JVal := List.replicate 10 itemOkA

def payload10 : JVal := JVal.obj [("data", JVal.obj [("items", JVal.arr items10)])]

def items9 : List JVal := List.replicate 9 itemOkA

def payload9 : JVal := JVal.obj [("data", JVal.obj [("items", JVal.arr items9)])]

/-- Ten items whose second element has a non-dict `fields` value. -/
def itemsBad : List JVal := itemOkA :: itemBadFields :: List.replicate 8 itemOkA

def payloadBad : JVal := JVal.obj [("data", JVal.obj [("items", JVal.arr itemsBad)])]

/-- Ten items that are all invalid (heading `NA`). -/
def itemsAllNA : List JVal := List.replicate 10 itemNA

def payloadNA : JVal := JVal.obj [("data", JVal.obj [("items", JVal.arr itemsAllNA)])]

/-- A script block carrying the text `J`. -/
def scriptJ : HNode := HNode.elem "script" [("type", "application/json")] [HNode.text "J"]

def soupJ : List HNode := [scriptJ]

def jsonLoadsBad : String → Except Unit JVal := fun _ => Except.ok payloadBad

def jsonLoadsNA : String → Except Unit JVal := fun _ => Except.ok payloadNA

def jsonLoads9 : String → Except Unit JVal := fun _ => Except.ok payload9

def jsonLoads10 : String → Except Unit JVal := fun _ => Except.ok payload10

def parseJ : String → Except Unit (List HNode) := fun _ => Except.ok soupJ

/-- A parse function returning a plain text document (no script blocks). -/
def parseTextT : String → Except Unit (List HNode) := fun _ => Except.ok [HNode.text "T"]

/-- A script block that does not parse as JSON under `jsonLoadsSeq`. -/
def scriptNot : HNode := HNode.elem "script" [("type", "application/json")] [HNode.text "notjson"]

/-- A script block whose text decodes to `payload10` under `jsonLoadsSeq`. -/
def scriptTen : HNode := HNode.elem "script" [("type", "application/json")] [HNode.text "ten"]

def soupSeq : List HNode := [scriptNot, scriptTen]

def jsonLoadsSeq : String → Except Unit JVal :=
  fun s => if s = "ten" then Except.ok payload10 else Except.error ()

/-! ## Helper lemmas -/

lemma head?_dropWhile_false {p : Char → Bool} {l : List Char} {c : Char}
    (h : (l.dropWhile p).head? = some c) : p c = false := by
  induction l with
  | nil => simp at h
  | cons a t ih =>
    by_cases hp : p a
    · rw [List.dropWhile_cons_of_pos hp] at h
      exact ih h
    · rw [List.dropWhile_cons_of_neg hp] at h
      simp at h
      rw [← h]
      simpa using hp

lemma dropWhile_eq_self_of_head? {p : Char → Bool} {l : List Char} {c : Char}
    (h : l.head? = some c) (hc : p c = false) : l.dropWhile p = l := by
  cases l with
  | nil => rfl
  | cons a t =>
    simp at h
    rw [← h] at hc
    exact List.dropWhile_cons_of_neg (by simp [hc])

lemma dropWhile_idem (p : Char → Bool) (l : List Char) :
    (l.dropWhile p).dropWhile p = l.dropWhile p := by
  cases h : (l.dropWhile p).head? with
  | none =>
    rw [List.head?_eq_none_iff] at h
    simp [h]
  | some c => exact dropWhile_eq_self_of_head? h (head?_dropWhile_false h)

lemma exists_append_dropWhile (p : Char → Bool) (l : List Char) :
    ∃ t, l = t ++ l.dropWhile p := by
  induction l with
  | nil => exact ⟨[], rfl⟩
  | cons a t ih =>
    by_cases hp : p a
    · obtain ⟨u, hu⟩ := ih
      refine ⟨a :: u, ?_⟩
      rw [List.dropWhile_cons_of_pos hp]
      simpa using hu
    · refine ⟨[], ?_⟩
      rw [List.dropWhile_cons_of_neg hp]
      simp

lemma mem_dropWhile_of_false {p : Char → Bool} {l : List Char} {c : Char}
    (hm : c ∈ l) (hc : p c = false) : c ∈ l.dropWhile p := by
  induction l with
  | nil => simp at hm
  | cons a t ih =>
    by_cases hp : p a
    · rw [List.dropWhile_cons_of_pos hp]
      rcases List.mem_cons.mp hm with h | h
      · rw [h] at hc; rw [hc] at hp; simp at hp
      · exact ih h
    · rw [List.dropWhile_cons_of_neg hp]
      exact hm

lemma pyStripList_ne_nil {l : List Char} {c : Char}
    (hm : c ∈ l) (hc : isPySpace c = false) : pyStripList l ≠ [] := by
  unfold pyStripList
  have h1 : c ∈ l.dropWhile isPySpace := mem_dropWhile_of_false hm hc
  have h2 : c ∈ (l.dropWhile isPySpace).reverse := List.mem_reverse.mpr h1
  have h3 : c ∈ (l.dropWhile isPySpace).reverse.dropWhile isPySpace :=
    mem_dropWhile_of_false h2 hc
  have h4 : c ∈ ((l.dropWhile isPySpace).reverse.dropWhile isPySpace).reverse :=
    List.mem_reverse.mpr h3
  exact List.ne_nil_of_mem h4

lemma mk_eq_empty_iff (l : List Char) : String.mk l = "" ↔ l = [] := by
  constructor
  · intro h
    have h2 := congrArg String.data h
    simpa using h2
  · intro h
    rw [h]

lemma pyStrip_ne_empty_of_mem {s : String} {c : Char}
    (hm : c ∈ s.data) (hc : isPySpace c = false) : pyStrip s ≠ "" := by
  unfold pyStrip
  rw [ne_eq, mk_eq_empty_iff]
  exact pyStripList_ne_nil hm hc

lemma head?_append_left {l m : List Char} (h : l ≠ []) :
    (l ++ m).head? = l.head? := by
  cases l with
  | nil => exact absurd rfl h
  | cons a t => rfl

lemma stripRight_dropWhile (l : List Char) :
    ((l.dropWhile isPySpace).reverse.dropWhile isPySpace).reverse.dropWhile isPySpace
      = ((l.dropWhile isPySpace).reverse.dropWhile isPySpace).reverse := by
  cases hh : ((l.dropWhile isPySpace).reverse.dropWhile isPySpace).reverse.head? with
  | none =>
    rw [List.head?_eq_none_iff] at hh
    simp [hh]
  | some c =>
    refine dropWhile_eq_self_of_head? hh ?_
    apply head?_dropWhile_false (p := isPySpace) (l := l)
    obtain ⟨t, ht⟩ := exists_append_dropWhile isPySpace (l.dropWhile isPySpace).reverse
    have hKrevne : ((l.dropWhile isPySpace).reverse.dropWhile isPySpace).reverse ≠ [] := by
      intro hnil
      rw [hnil] at hh
      simp at hh
    have hAeq : l.dropWhile isPySpace
        = ((l.dropWhile isPySpace).reverse.dropWhile isPySpace).reverse ++ t.reverse := by
      have h2 := congrArg List.reverse ht
      simpa using h2
    rw [hAeq, head?_append_left hKrevne, hh]

lemma pyStripList_idem (l : List Char) : pyStripList (pyStripList l) = pyStripList l := by
  show (((pyStripList l).dropWhile isPySpace).reverse.dropWhile isPySpace).reverse
      = pyStripList l
  rw [show (pyStripList l).dropWhile isPySpace = pyStripList l from stripRight_dropWhile l]
  unfold pyStripList
  rw [List.reverse_reverse, dropWhile_idem]

lemma pyStrip_idem (s : String) : pyStrip (pyStrip s) = pyStrip s := by
  unfold pyStrip
  rw [pyStripList_idem]

/-- A `filterMap` whose function succeeds on every member is a `map`. -/
lemma filterMap_eq_map_on {α β : Type} {f : α → Option β} {g : α → β} {l : List α}
    (h : ∀ x ∈ l, f x = some (g x)) : l.filterMap f = l.map g := by
  induction l with
  | nil => rfl
  | cons a t ih =>
    rw [List.filterMap_cons, h a (List.mem_cons_self a t), List.map_cons,
      ih (fun x hx => h x (List.mem_cons_of_mem a hx))]

lemma snd_mem_of_mem_enum {α : Type} {l : List α} {p : Nat × α}
    (h : p ∈ l.enum) : p.2 ∈ l := by
  have h2 := List.mem_map_of_mem Prod.snd h
  rwa [List.enum_map_snd] at h2

/-! ## The claims -/

/-- C5: `_process_li_content` rewrites `<b>...</b>` to `**...**` and `<br>`
variants (optional self-closing slash, case-insensitive) to the line-break
marker before any tag stripping, strips the remaining tags, splits on the
marker, strips each segment, drops empty segments and rejoins the survivors
with the two-space-plus-newline hard break; `<li>Hello<br>World</li>`
converts to `Hello`, hard break, `World`, and `<li><b>X</b> rest</li>`
to `"**X** rest"`. -/
theorem li_content_pipeline :
    (∀ li_element : HNode,
      process_li_content li_element = process_li_str (serialize li_element)) ∧
    (∀ s : String,
      process_li_str s =
        Constants.MARKDOWN_LINE_BREAK.intercalate
          (((splitOnSep Constants.LINEBREAK_MARKER.data
                (pyStripList (stripTags (brSub (boldSub s.data))))).map
              (fun l => pyStrip (String.mk l))).filter (fun line => !(line = "")))) ∧
    process_li_content liBrEx = "Hello  \nWorld" ∧
    process_li_content liBoldEx = "**X** rest" :=
  ⟨fun _ => rfl, fun _ => rfl, rfl, rfl⟩

/-- C10: in an ordered list each direct `li` child consumes its 1-based
position even when its processed text is empty and the line is omitted, so
the emitted numbering can be non-contiguous: `A`, empty, `C` renders as
`1. A` then `3. C`. -/
theorem ordered_list_position_consumed :
    (∀ ol_element : HNode,
      convert_ordered_list ol_element =
        String.intercalate "\n"
          ((findDirect "li" ol_element).enum.filterMap (fun p =>
            if process_li_content p.2 = "" then none
            else some (toString (p.1 + 1) ++ ". " ++ process_li_content p.2)))) ∧
    process_li_content (HNode.elem "li" [] []) = "" ∧
    convert_ordered_list olGapEx = "1. A\n3. C" :=
  ⟨fun _ => rfl, rfl, rfl⟩

/-- C9: a located item sequence whose second element carries a `fields`
value that is a string rather than a dict makes `_is_valid_item` raise, so
`get_guidelines` returns the sentinel for the whole document instead of
skipping that single item. -/
theorem non_dict_fields_poisons_document :
    extract_json_data jsonLoadsBad soupJ = some itemsBad ∧
    is_valid_item itemBadFields = Except.error () ∧
    process_json_data parseJ itemsBad = Except.error () ∧
    get_guidelines (Except.ok "<html>") parseJ jsonLoadsBad = Constants.ERROR_MESSAGE :=
  ⟨rfl, rfl, rfl, rfl⟩

/-- C2 counterexample: when the locator succeeds but the assembled result is
empty, the pipeline does **not** fall back to whole-page text extraction —
`get_guidelines` returns the sentinel even though the fallback text would
have been non-empty. -/
theorem empty_assembly_no_fallback :
    extract_json_data jsonLoadsNA soupJ = some itemsAllNA ∧
    process_json_data parseJ itemsAllNA = Except.ok "" ∧
    extract_all_text soupJ = "J" ∧
    get_guidelines (Except.ok "<html>") parseJ jsonLoadsNA = Constants.ERROR_MESSAGE ∧
    Constants.ERROR_MESSAGE ≠ extract_all_text soupJ :=
  ⟨rfl, rfl, rfl, rfl, by decide⟩

lemma blockResult_some_ne_nil {jsonLoads : String → Except Unit JVal} {script : HNode}
    {items : List JVal} (h : blockResult jsonLoads script = some items) : items ≠ [] := by
  unfold blockResult at h
  split at h
  · simp at h
  · split at h
    · simp at h
    · split at h
      · simp at h
      · split at h
        · split at h
          · simp at h
          · next hemp =>
            simp only [Option.some.injEq] at h
            rw [← h]
            simpa [List.isEmpty_iff] using hemp
        · simp at h

lemma scanScripts_some_ne_nil {jsonLoads : String → Except Unit JVal} {l : List HNode}
    {items : List JVal} (h : scanScripts jsonLoads l = some items) : items ≠ [] := by
  induction l with
  | nil => simp [scanScripts] at h
  | cons s rest ih =>
    rw [scanScripts] at h
    cases hb : blockResult jsonLoads s with
    | some its =>
      rw [hb] at h
      simp at h
      rw [← h]
      exact blockResult_some_ne_nil hb
    | none =>
      rw [hb] at h
      exact ih h

lemma extract_json_data_some_ne_nil {jsonLoads : String → Except Unit JVal}
    {soup : List HNode} {items : List JVal}
    (h : extract_json_data jsonLoads soup = some items) : items ≠ [] :=
  scanScripts_some_ne_nil h

/-- C1: `get_guidelines` is total — for every behaviour of the transport
(`fetch`), of the HTML parser and of the JSON decoder it returns a string,
which is either the successfully rendered pipeline result or the fixed
sentinel; every internal exception (`Except.error` anywhere in the
pipeline) is mapped to the sentinel, and a fetch failure yields exactly the
sentinel. -/
theorem get_guidelines_total_contract :
    ∀ (fetch : Except Unit String) (parse : String → Except Unit (List HNode))
      (jsonLoads : String → Except Unit JVal),
      (get_guidelines fetch parse jsonLoads = Constants.ERROR_MESSAGE ∨
       ∃ html result, fetch = Except.ok html ∧
         parse_content parse jsonLoads html = Except.ok result ∧
         pyStrip result ≠ "" ∧ get_guidelines fetch parse jsonLoads = result) ∧
      (∀ e, fetch = Except.error e →
        get_guidelines fetch parse jsonLoads = Constants.ERROR_MESSAGE) ∧
      (∀ html e, fetch = Except.ok html →
        parse_content parse jsonLoads html = Except.error e →
        get_guidelines fetch parse jsonLoads = Constants.ERROR_MESSAGE) := by
  intro fetch parse jsonLoads
  refine ⟨?_, ?_, ?_⟩
  · cases fetch with
    | error e => exact Or.inl rfl
    | ok html =>
      cases hp : parse_content parse jsonLoads html with
      | error e =>
        left
        simp [get_guidelines, hp]
      | ok result =>
        by_cases hr : pyStrip result = ""
        · left
          simp [get_guidelines, hp, hr]
        · right
          exact ⟨html, result, rfl, hp, hr, by simp [get_guidelines, hp, hr]⟩
  · intro e he
    subst he
    rfl
  · intro html e he hp
    subst he
    simp [get_guidelines, hp]

theorem get_guidelines_total_contract_witness :
    get_guidelines (Except.error ()) parseJ jsonLoadsBad = Constants.ERROR_MESSAGE :=
  (get_guidelines_total_contract (Except.error ()) parseJ jsonLoadsBad).2.1 () rfl

/-- C2 (amended): when the locator succeeds, `_parse_content` returns the
result of the assembler unconditionally — an empty assembled result is not
routed to the whole-page fallback but becomes the sentinel at
`get_guidelines`; the fallback to whole-page text extraction happens only
when the locator fails, and an empty/whitespace-only pipeline result
becomes the sentinel. -/
theorem parse_content_routing :
    ∀ (parse : String → Except Unit (List HNode)) (jsonLoads : String → Except Unit JVal)
      (html : String) (soup : List HNode),
      pyStrip html ≠ "" →
      parse html = Except.ok soup →
      ((∀ items, extract_json_data jsonLoads soup = some items →
          parse_content parse jsonLoads html = process_json_data parse items) ∧
       (extract_json_data jsonLoads soup = none →
          parse_content parse jsonLoads html = Except.ok (extract_all_text soup)) ∧
       (∀ r, parse_content parse jsonLoads html = Except.ok r → pyStrip r = "" →
          get_guidelines (Except.ok html) parse jsonLoads = Constants.ERROR_MESSAGE) ∧
       (∀ r, parse_content parse jsonLoads html = Except.ok r → pyStrip r ≠ "" →
          get_guidelines (Except.ok html) parse jsonLoads = r)) := by
  intro parse jsonLoads html soup hne hp
  refine ⟨?_, ?_, ?_, ?_⟩
  · intro items hx
    have hnn : items ≠ [] := extract_json_data_some_ne_nil hx
    simp [parse_content, if_neg hne, hp, hx, List.isEmpty_iff, hnn]
  · intro hx
    simp [parse_content, if_neg hne, hp, hx]
  · intro r hr hrs
    simp [get_guidelines, hr, hrs]
  · intro r hr hrs
    simp [get_guidelines, hr, if_neg hrs]

theorem parse_content_routing_witness :
    parse_content parseTextT jsonLoadsBad "x" = Except.ok "T" ∧
    get_guidelines (Except.ok "x") parseTextT jsonLoadsBad = "T" := by
  have h := parse_content_routing parseTextT jsonLoadsBad "x" [HNode.text "T"]
    (by decide) rfl
  have h1 : parse_content parseTextT jsonLoadsBad "x" = Except.ok "T" := h.2.1 rfl
  exact ⟨h1, h.2.2.2 "T" h1 (by decide)⟩

/-- C3: the locator scans the `application/json` script blocks in document
order: a block whose text fails to decode is skipped without aborting the
scan, the first block whose decoded value is a dict with `data.items` a
sequence of length at least 10 whose first element is a dict containing
`fields` wins (no further blocks are examined), and the scan returns absent
when no block qualifies; a 9-item block yields absent, a 10-item block is
returned. -/
theorem locator_scan_contract :
    (∀ (jsonLoads : String → Except Unit JVal) (content : List HNode)
       (pre : List HNode) (script : HNode) (post : List HNode) (items : List JVal),
       findAllList isJsonScript content = pre ++ script :: post →
       (∀ t ∈ pre, blockResult jsonLoads t = none) →
       blockResult jsonLoads script = some items →
       extract_json_data jsonLoads content = some items) ∧
    (∀ (jsonLoads : String → Except Unit JVal) (content : List HNode),
       (∀ t ∈ findAllList isJsonScript content, blockResult jsonLoads t = none) →
       extract_json_data jsonLoads content = none) ∧
    (∀ (jsonLoads : String → Except Unit JVal) (script : HNode) (s : String) (e : Unit),
       hstring script = some s → jsonLoads s = Except.error e →
       blockResult jsonLoads script = none) ∧
    (∀ (data : JVal) (items : List JVal),
       extract_guideline_items_from_json data = some items ↔
       ∃ kvs dkvs ikvs rest,
         data = JVal.obj kvs ∧
         jLookup kvs "data" = some (JVal.obj dkvs) ∧
         jLookup dkvs "items" = some (JVal.arr items) ∧
         Constants.MIN_ITEMS_COUNT ≤ items.length ∧
         items = JVal.obj ikvs :: rest ∧
         (jLookup ikvs "fields").isSome = true) ∧
    extract_json_data jsonLoads9 soupJ = none ∧
    extract_json_data jsonLoads10 soupJ = some items10 := by
  have scan_first : ∀ (jsonLoads : String → Except Unit JVal) (pre : List HNode)
      (script : HNode) (post : List HNode) (items : List JVal),
      (∀ t ∈ pre, blockResult jsonLoads t = none) →
      blockResult jsonLoads script = some items →
      scanScripts jsonLoads (pre ++ script :: post) = some items := by
    intro jsonLoads pre
    induction pre with
    | nil =>
      intro script post items _ hb
      rw [List.nil_append, scanScripts, hb]
    | cons p ps ih =>
      intro script post items hpre hb
      rw [List.cons_append, scanScripts, hpre p (List.mem_cons_self p ps)]
      exact ih script post items (fun t ht => hpre t (List.mem_cons_of_mem p ht)) hb
  have scan_none : ∀ (jsonLoads : String → Except Unit JVal) (l : List HNode),
      (∀ t ∈ l, blockResult jsonLoads t = none) → scanScripts jsonLoads l = none := by
    intro jsonLoads l
    induction l with
    | nil => intro _; rfl
    | cons s rest ih =>
      intro h
      rw [scanScripts, h s (List.mem_cons_self s rest)]
      exact ih (fun t ht => h t (List.mem_cons_of_mem s ht))
  refine ⟨?_, ?_, ?_, ?_, rfl, rfl⟩
  · intro jsonLoads content pre script post items hfa hpre hb
    unfold extract_json_data
    rw [hfa]
    exact scan_first jsonLoads pre script post items hpre hb
  · intro jsonLoads content h
    exact scan_none jsonLoads _ h
  · intro jsonLoads script s e hs hj
    unfold blockResult
    simp only [hs]
    by_cases he : s = ""
    · simp only [if_pos he]
    · simp only [if_neg he, hj]
  · intro data items
    constructor
    · intro h
      unfold extract_guideline_items_from_json at h
      split at h
      case _ kvs =>
        split at h
        case _ dkvs hd =>
          split at h
          case _ its hi =>
            split at h
            · simp at h
            case _ hlen =>
              split at h
              case _ ikvs rest =>
                split at h
                case _ hf =>
                  simp only [Option.some.injEq] at h
                  subst h
                  exact ⟨kvs, dkvs, ikvs, rest, rfl, hd, hi, by omega, rfl, hf⟩
                · simp at h
              · simp at h
          · simp at h
        · simp at h
      · simp at h
    · rintro ⟨kvs, dkvs, ikvs, rest, rfl, h1, h2, h3, rfl, h4⟩
      simp only [extract_guideline_items_from_json, h1, h2]
      rw [if_neg (by omega)]
      simp [h4]

theorem locator_scan_contract_witness :
    extract_json_data jsonLoadsSeq soupSeq = some items10 :=
  locator_scan_contract.1 jsonLoadsSeq soupSeq [scriptNot] scriptTen [] items10
    rfl
    (fun t ht => by rw [List.mem_singleton] at ht; rw [ht]; rfl)
    rfl

/-- C4: an item whose `fields.itemHeading` is missing, empty or the literal
`NA` (or whose `fields` key is missing) is invalid; an invalid item
contributes no sections and leaves the current-category tracking unchanged
— processing the sequence with the invalid item deleted yields the same
document. -/
theorem invalid_item_is_skipped :
    ∀ (parse : String → Except Unit (List HNode)),
      (∀ kvs fkvs, jLookup kvs "fields" = some (JVal.obj fkvs) →
         (jLookup fkvs "itemHeading" = none ∨
          jLookup fkvs "itemHeading" = some (JVal.str "") ∨
          jLookup fkvs "itemHeading" = some (JVal.str "NA")) →
         is_valid_item (JVal.obj kvs) = Except.ok false) ∧
      (∀ kvs, jLookup kvs "fields" = none →
         is_valid_item (JVal.obj kvs) = Except.ok false) ∧
      (∀ item, is_valid_item item = Except.ok false →
         (∀ current rest,
            processItems parse current (item :: rest) = processItems parse current rest) ∧
         (∀ pre post,
            process_json_data parse (pre ++ item :: post)
              = process_json_data parse (pre ++ post))) := by
  intro parse
  refine ⟨?_, ?_, ?_⟩
  · intro kvs fkvs h1 h2
    have hcon : pyContains (JVal.obj kvs) "fields" = Except.ok true := by
      simp [pyContains, h1]
    have hsub : pySubscript (JVal.obj kvs) "fields" = Except.ok (JVal.obj fkvs) := by
      simp [pySubscript, h1]
    rcases h2 with h2 | h2 | h2 <;>
      simp [is_valid_item, hcon, hsub, pyGet, jLookupD, h2, pyTruthy, jvalEq]
  · intro kvs h
    simp [is_valid_item, pyContains, h]
  · intro item hv
    have skip : ∀ current rest,
        processItems parse current (item :: rest) = processItems parse current rest := by
      intro current rest
      rw [processItems, hv]
    refine ⟨skip, ?_⟩
    intro pre post
    have key : ∀ (pre2 : List JVal) (current : Option JVal),
        processItems parse current (pre2 ++ item :: post)
          = processItems parse current (pre2 ++ post) := by
      intro pre2
      induction pre2 with
      | nil =>
        intro current
        rw [List.nil_append, List.nil_append]
        exact skip current post
      | cons p ps ih =>
        intro current
        rw [List.cons_append, List.cons_append, processItems, processItems]
        cases hvp : is_valid_item p with
        | error e => rfl
        | ok b =>
          cases b with
          | false => exact ih current
          | true =>
            cases hc : extract_category p with
            | error e => rfl
            | ok category =>
              cases hcu : categoryUpdate category current with
              | mk catSecs current2 =>
                simp only [hcu, ih current2]
    rw [process_json_data, process_json_data, key pre none]

theorem invalid_item_is_skipped_witness :
    processItems parseJ none [itemNA, itemOkA] = processItems parseJ none [itemOkA] :=
  (((invalid_item_is_skipped parseJ).2.2 itemNA rfl).1) none [itemOkA]

lemma data_hash2 (x : String) : ("## " ++ x).data = '#' :: '#' :: ' ' :: x.data := by
  cases x with
  | mk l => rfl

lemma data_hash3 (x : String) : ("### " ++ x).data = '#' :: '#' :: '#' :: ' ' :: x.data := by
  cases x with
  | mk l => rfl

lemma hash2_nonblank (x : String) : pyStrip ("## " ++ x) ≠ "" :=
  pyStrip_ne_empty_of_mem (c := '#')
    (by rw [data_hash2]; exact List.mem_cons_self _ _) rfl

lemma hash3_nonblank (x : String) : pyStrip ("### " ++ x) ≠ "" :=
  pyStrip_ne_empty_of_mem (c := '#')
    (by rw [data_hash3]; exact List.mem_cons_self _ _) rfl

lemma categoryUpdate_sections_nonblank (category current : Option JVal) :
    ∀ s ∈ (categoryUpdate category current).1, pyStrip s ≠ "" := by
  intro s hs
  cases category with
  | none => simp [categoryUpdate] at hs
  | some c =>
    cases current with
    | none =>
      simp only [categoryUpdate, List.mem_singleton] at hs
      rw [hs]
      exact hash2_nonblank _
    | some p =>
      by_cases h : jvalEq c p
      · simp [categoryUpdate, h] at hs
      · simp only [categoryUpdate, Bool.not_eq_true] at hs
        rw [if_neg (by simpa using h)] at hs
        rw [List.mem_singleton] at hs
        rw [hs]
        exact hash2_nonblank _

lemma convert_item_sections_nonblank {parse : String → Except Unit (List HNode)}
    {item : JVal} {secs : List String}
    (h : convert_item_to_markdown_sections parse item = Except.ok secs) :
    ∀ s ∈ secs, pyStrip s ≠ "" := by
  unfold convert_item_to_markdown_sections at h
  split at h
  · simp at h
  next fields hfields =>
    split at h
    · simp at h
    next heading hheading =>
      split at h
      · simp at h
      next content hcontent =>
        split at h
        · split at h
          · simp at h
          next md hcv =>
            simp only [Except.ok.injEq] at h
            rw [← h]
            intro s hs
            by_cases hmd : pyStrip md = ""
            · rw [if_pos hmd, List.mem_singleton] at hs
              rw [hs]
              exact hash3_nonblank _
            · rw [if_neg hmd, List.mem_cons, List.mem_singleton] at hs
              rcases hs with hs | hs
              · rw [hs]
                exact hash3_nonblank _
              · rw [hs, pyStrip_idem]
                exact hmd
        · simp only [Except.ok.injEq] at h
          rw [← h]
          intro s hs
          rw [List.mem_singleton] at hs
          rw [hs]
          exact hash3_nonblank _

/-- C8: every section of an assembled document is non-empty and not
whitespace-only — headings start with heading markers and a body section is
only emitted when its stripped conversion is non-empty. -/
theorem assembled_sections_nonblank :
    ∀ (parse : String → Except Unit (List HNode)) (current : Option JVal)
      (items : List JVal) (sections : List String),
      processItems parse current items = Except.ok sections →
      ∀ s ∈ sections, pyStrip s ≠ "" := by
  intro parse current items
  induction items generalizing current with
  | nil =>
    intro sections h
    rw [processItems] at h
    simp only [Except.ok.injEq] at h
    rw [← h]
    intro s hs
    simp at hs
  | cons item rest ih =>
    intro sections h
    rw [processItems] at h
    split at h
    · simp at h
    · exact ih current sections h
    · split at h
      · simp at h
      · next category heq =>
        split at h
        · next catSecs current2 hcu =>
          split at h
          · simp at h
          · next isecs hcv =>
            split at h
            · simp at h
            · next tail htail =>
              simp only [Except.ok.injEq] at h
              rw [← h]
              intro s hs
              rcases List.mem_append.mp hs with hs | hs
              · have h2 := categoryUpdate_sections_nonblank category current s
                rw [hcu] at h2
                exact h2 hs
              · rcases List.mem_append.mp hs with hs | hs
                · exact convert_item_sections_nonblank hcv s hs
                · exact ih current2 tail htail s hs

theorem assembled_sections_nonblank_witness : pyStrip "### A" ≠ "" :=
  assembled_sections_nonblank parseJ none [itemOkA] ["### A"] rfl "### A"
    (List.mem_singleton.mpr rfl)

/-- C6: a table renders its first `tr` as a pipe-delimited header row
followed by one separator row with `---` per header column and each
subsequent `tr` as a pipe-delimited data row (stated for rows that carry at
least one cell, the only rows the pipe format renders), and a table with no
rows renders as the empty string; the `[H1, H2]` / `[a, b]` table renders
as the three pipe lines. -/
theorem table_pipe_rendering :
    (∀ table_element : HNode, findAllDesc isTr table_element = [] →
       convert_table table_element = "") ∧
    (∀ (table_element header_row : HNode) (data_rows : List HNode),
       findAllDesc isTr table_element = header_row :: data_rows →
       rowCells header_row ≠ [] →
       (∀ r ∈ data_rows, rowCells r ≠ []) →
       convert_table table_element =
         String.intercalate "\n"
           (pipeRow (rowCells header_row)
             :: pipeRow (List.replicate (rowCells header_row).length "---")
             :: data_rows.map (fun r => pipeRow (rowCells r)))) ∧
    convert_table tableEx = "| H1 | H2 |\n| --- | --- |\n| a | b |" := by
  refine ⟨?_, ?_, rfl⟩
  · intro t h
    unfold convert_table
    rw [h]
  · intro t header_row data_rows hrows hhead hdata
    unfold convert_table
    simp only [hrows]
    rw [if_neg hhead]
    rw [filterMap_eq_map_on (g := fun r => pipeRow (rowCells r))
      (fun r hr => if_neg (hdata r hr))]
    rfl

theorem table_pipe_rendering_witness :
    convert_table tableEx =
      String.intercalate "\n"
        (pipeRow (rowCells trHeadEx)
          :: pipeRow (List.replicate (rowCells trHeadEx).length "---")
          :: [trDataEx].map (fun r => pipeRow (rowCells r))) :=
  table_pipe_rendering.2.1 tableEx trHeadEx [trDataEx] rfl (by decide)
    (fun r hr => by rw [List.mem_singleton] at hr; rw [hr]; decide)

/-- C7: every direct `li` child of a `ul` renders as `- <item text>` on its
own line and every direct `li` child of an `ol` renders as
`<1-based index>. <item text>` (stated for items whose processed text is
non-empty, the only ones the converter emits); `<ul><li>A</li><li>B</li></ul>`
renders as `- A` / `- B` and the `ol` variant as `1. A` / `2. B`. -/
theorem list_items_rendered :
    (∀ el : HNode,
      (∀ li ∈ findDirect "li" el, process_li_content li ≠ "") →
      convert_unordered_list el =
        String.intercalate "\n"
          ((findDirect "li" el).map (fun li => "- " ++ process_li_content li)) ∧
      convert_ordered_list el =
        String.intercalate "\n"
          ((findDirect "li" el).enum.map (fun p =>
            toString (p.1 + 1) ++ ". " ++ process_li_content p.2))) ∧
    convert_unordered_list ulEx = "- A\n- B" ∧
    convert_ordered_list olEx = "1. A\n2. B" := by
  refine ⟨?_, rfl, rfl⟩
  intro el h
  constructor
  · unfold convert_unordered_list convert_list
    rw [filterMap_eq_map_on (g := fun p : Nat × HNode => "- " ++ process_li_content p.2)
      (fun p hp => if_neg (h p.2 (snd_mem_of_mem_enum hp)))]
    congr 1
    rw [show (fun p : Nat × HNode => "- " ++ process_li_content p.2)
        = (fun li => "- " ++ process_li_content li) ∘ Prod.snd from rfl,
      ← List.map_map, List.enum_map_snd]
  · unfold convert_ordered_list convert_list
    rw [filterMap_eq_map_on
      (g := fun p : Nat × HNode => toString (p.1 + 1) ++ ". " ++ process_li_content p.2)
      (fun p hp => if_neg (h p.2 (snd_mem_of_mem_enum hp)))]

theorem list_items_rendered_witness :
    convert_unordered_list ulEx =
      String.intercalate "\n"
        ((findDirect "li" ulEx).map (fun li => "- " ++ process_li_content li)) :=
  (list_items_rendered.1 ulEx (by decide)).1
